import Mathlib

/-!
Verification of the mcp-blueprint repository: a shallow embedding of the
tool handlers (`search_repo`, `run_tests` in `src/mcp_devops/server.py` and
the legacy `mcp_server.py`), the three orchestration clients
(`mcp_client.py`, `mcp_client_http.py`, `src/mcp_devops/client.py`) and the
session lifecycle, together with theorems settling the specification's
claims about error containment, orchestration round-trips, timeouts,
sequential tool invocation and session close semantics.

Python exceptions are modelled with an explicit exception type `PyExn` and
the `Except` monad; a `try/except` block becomes a `match` on the outcome
of the guarded computation.  External effects (the git library, the pytest
subprocess, the reasoning-service API, the MCP transport) are modelled as
environment parameters; a subprocess that never terminates is modelled by
`Option` (`none` = the call hangs).
-/

/-- Python exception values, tagged by the exception class the source code
distinguishes, each carrying the text Python's `str(e)` would produce. -/
inductive PyExn where
  | invalidGitRepository (msg : String)
  | gitCommandError (msg : String)
  | timeoutExpired (msg : String)
  | fileNotFound (msg : String)
  | runtimeError (msg : String)
  | valueError (msg : String)
  | apiError (msg : String)
  | orchestration (msg : String)
  | other (msg : String)
deriving DecidableEq, Repr

/-- `str(e)` for a modelled Python exception. -/
def PyExn.str : PyExn → String
  | .invalidGitRepository m => m
  | .gitCommandError m => m
  | .timeoutExpired m => m
  | .fileNotFound m => m
  | .runtimeError m => m
  | .valueError m => m
  | .apiError m => m
  | .orchestration m => m
  | .other m => m

/-- Whether an `Except` value is a success (`.ok`). -/
def isOkB : Except PyExn α → Bool
  | .ok _ => true
  | .error _ => false

/-- Decidable check that the character list `n` occurs contiguously inside
`h` (Python's `in` operator on strings). -/
def isSubList (n : List Char) : List Char → Bool
  | [] => n.isEmpty
  | c :: t => n.isPrefixOf (c :: t) || isSubList n t

/-- Python `needle in hay` on strings. -/
def strIn (needle hay : String) : Bool :=
  isSubList needle.toList hay.toList

/-- Python `s[-n:]`: the last `n` characters of `s`. -/
def strTail (n : Nat) (s : String) : String :=
  String.mk (s.toList.drop (s.toList.length - n))

/-! ## The git environment and `search_repo` (src/mcp_devops/server.py) -/

/-- One item yielded by `repo.tree().traverse()`.  `content = none` models a
blob whose `data_stream.read()` raises (the handler's inner `except` skips
it). -/
structure GitBlob where
  path : String
  isBlob : Bool
  content : Option String
deriving DecidableEq, Repr

/-- The outcome of `git.Repo(root)` followed by `repo.tree().traverse()`:
either the list of traversed items or an exception raised by the git
library. -/
structure GitEnv where
  repo : String → Except PyExn (List GitBlob)

/-- The `for item in repo.tree().traverse()` loop body of `search_repo`:
keep the path of every blob whose decoded content contains the keyword
case-insensitively; unreadable items are skipped by the inner
`try/except`. -/
def searchMatches (keyword : String) (blobs : List GitBlob) : List String :=
  blobs.filterMap fun b =>
    if b.isBlob then
      match b.content with
      | some c => if strIn keyword.toLower c.toLower then some b.path else none
      | none => none
    else none

/-- `search_repo` from `src/mcp_devops/server.py`: the whole body is wrapped
in `try/except`, with a dedicated message for `InvalidGitRepositoryError`
and a generic `Error: {e}` line for any other exception.  The `Except`
return type records that the handler could in principle raise; the
theorems show it never does. -/
def search_repo (env : GitEnv) (keyword root : String) : Except PyExn (List String) :=
  match env.repo root with
  | .ok blobs => .ok (searchMatches keyword blobs)
  | .error (.invalidGitRepository _) =>
      .ok ["Error: " ++ root ++ " is not a valid git repository"]
  | .error e => .ok ["Error: " ++ e.str]

/-! ## The subprocess environment and the two `run_tests` handlers -/

/-- The completed-process value `subprocess.run` returns. -/
structure ProcResult where
  returncode : Int
  stdout : String
  stderr : String
deriving DecidableEq, Repr

/-- Behaviour of the pytest subprocess for one invocation: it finishes
after `duration` seconds, never finishes, or the spawn itself raises
(e.g. `FileNotFoundError` when pytest is not installed). -/
inductive ProcOutcome where
  | completes (duration : Nat) (res : ProcResult)
  | hangs
  | raises (e : PyExn)
deriving Repr

/-- Semantics of `subprocess.run(cmd, timeout=t)`.  `none` means the call
itself never returns (only possible when no timeout is given); with a
timeout, a process that runs too long or never finishes raises
`TimeoutExpired`. -/
def subprocessRun : ProcOutcome → Option Nat → Option (Except PyExn ProcResult)
  | .raises e, _ => some (.error e)
  | .completes _ res, none => some (.ok res)
  | .completes d res, some t =>
      some (if d ≤ t then .ok res else .error (.timeoutExpired "timed out"))
  | .hangs, none => none
  | .hangs, some _ => some (.error (.timeoutExpired "timed out"))

/-- The result dictionary of the mcp_devops `run_tests`. -/
structure TestsDict where
  returncode : Int
  failures : List String
  raw : String
  success : Bool
deriving DecidableEq, Repr

/-- The failure-line scan of the mcp_devops `run_tests`: lines starting
with `E   ` or containing `FAILED`, stripped. -/
def devopsFailureLines (output : String) : List String :=
  (output.splitOn "\n").filterMap fun line =>
    if line.startsWith "E   " || strIn "FAILED" line then some line.trim else none

/-- `run_tests` from `src/mcp_devops/server.py`: runs pytest with
`timeout=300`, parses failures, and converts `TimeoutExpired`,
`FileNotFoundError` and any other exception into a structured failure
dictionary.  `none` would mean the call hangs; the theorems show it cannot
with the timeout in place. -/
def run_tests (proc : String → ProcOutcome) (testPath : String) :
    Option (Except PyExn TestsDict) :=
  match subprocessRun (proc testPath) (some 300) with
  | none => none
  | some r => some (.ok (match r with
      | .ok res =>
          let output := res.stdout ++ res.stderr
          { returncode := res.returncode
            failures := devopsFailureLines output
            raw := strTail 1000 output
            success := res.returncode == 0 }
      | .error (.timeoutExpired _) =>
          { returncode := -1
            failures := ["Test execution timed out after 5 minutes"]
            raw := ""
            success := false }
      | .error (.fileNotFound _) =>
          { returncode := -1
            failures := ["pytest not found. Please install pytest."]
            raw := ""
            success := false }
      | .error e =>
          { returncode := -1
            failures := ["Error running tests: " ++ e.str]
            raw := ""
            success := false }))

/-- The result dictionary of the legacy `run_tests` (no `success` field). -/
structure LegacyTestsDict where
  returncode : Int
  failures : List String
  raw : String
deriving DecidableEq, Repr

/-- The failure-line scan of the legacy `run_tests`: only `E   ` lines. -/
def legacyFailureLines (output : String) : List String :=
  (output.splitOn "\n").filterMap fun line =>
    if line.startsWith "E   " then some line.trim else none

/-- `run_tests` from the legacy root-level `mcp_server.py`: calls
`subprocess.run` with NO timeout argument and no `try/except`, so a
hanging pytest hangs the call (`none`) and a spawn exception propagates. -/
def run_tests_legacy (proc : String → ProcOutcome) (testPath : String) :
    Option (Except PyExn LegacyTestsDict) :=
  match subprocessRun (proc testPath) none with
  | none => none
  | some (.error e) => some (.error e)
  | some (.ok res) =>
      let output := res.stdout ++ res.stderr
      some (.ok { returncode := res.returncode
                  failures := legacyFailureLines output
                  raw := strTail 500 output })

/-! ## The orchestration clients

All three clients are modelled over a call log `CallLog` recording, in
order, every request sent to the reasoning service (with the message list
it was sent) and every tool invocation issued on the MCP session.  The
reasoning service is a stub: a list of canned responses consumed by call
index; the MCP session's `call_tool` is a `ToolBehavior`. -/

/-- Role of a chat message. -/
inductive Role where
  | user
  | assistant
deriving DecidableEq, Repr

/-- One chat message. -/
structure Msg where
  role : Role
  content : String
deriving DecidableEq, Repr

/-- One OpenAI tool call: id, function name, JSON argument string. -/
structure ToolCall where
  id : String
  name : String
  args : String
deriving DecidableEq, Repr

/-- An OpenAI chat-completion message: optional text content plus a
(possibly empty) list of tool calls. -/
structure ChatMessage where
  content : Option String
  toolCalls : List ToolCall
deriving DecidableEq, Repr

/-- One part of an Anthropic response: a text block or a tool-use block. -/
inductive ContentPart where
  | text (s : String)
  | toolUse (name : String) (input : String)
deriving DecidableEq, Repr

/-- The result object `session.call_tool` resolves to: the text of each
content item, plus the `str(result)` fallback used when `result.content`
is empty. -/
structure ToolResult where
  contents : List String
  strRepr : String
deriving DecidableEq, Repr

/-- The clients' content extraction: `result.content[0].text` when content
is non-empty, else `str(result)`. -/
def ToolResult.firstText (r : ToolResult) : String :=
  match r.contents with
  | [] => r.strRepr
  | t :: _ => t

/-- Behaviour of the MCP session's `call_tool` for each (name, arguments)
pair: a result, or an exception raised by the transport/tool. -/
structure ToolBehavior where
  respond : String → String → Except PyExn ToolResult

/-- The observable call log of one orchestration run. -/
structure CallLog where
  svcCalls : List (List Msg)
  toolCalls : List (String × String)
deriving DecidableEq, Repr

/-- Issue one reasoning-service request: log the message list sent and
return the stub's next canned response (the stub is consumed by call
index). -/
def svcCreate (stub : List (Except PyExn α)) (w : CallLog) (msgs : List Msg) :
    CallLog × Except PyExn α :=
  ({ w with svcCalls := w.svcCalls ++ [msgs] },
   stub.getD w.svcCalls.length (.error (.apiError "stub exhausted")))

/-- Issue one `call_tool` request: log the invocation and return the
behaviour's response. -/
def toolCall (beh : ToolBehavior) (w : CallLog) (name args : String) :
    CallLog × Except PyExn ToolResult :=
  ({ w with toolCalls := w.toolCalls ++ [(name, args)] }, beh.respond name args)

/-! ### Legacy stdio client `mcp_client.py` (`PRAssistant.assist`) -/

/-- The `for tool_call in message.tool_calls` loop of `mcp_client.py`:
each call is issued in list order and its result rendered as
`\n[Tool {name} result]\n{content}\n`; there is NO `try/except` around
`call_tool`, so an exception aborts the loop and propagates. -/
def runToolCallsLegacy (beh : ToolBehavior) (w : CallLog) :
    List ToolCall → CallLog × Except PyExn (List String)
  | [] => (w, .ok [])
  | tc :: rest =>
      match toolCall beh w tc.name tc.args with
      | (w1, .error e) => (w1, .error e)
      | (w1, .ok res) =>
          match runToolCallsLegacy beh w1 rest with
          | (w2, .error e) => (w2, .error e)
          | (w2, .ok ts) =>
              (w2, .ok (("\n[Tool " ++ tc.name ++ " result]\n" ++ res.firstText ++ "\n") :: ts))

/-- Python's `"".join` over the accumulated `final_text` fragments. -/
def concatAll : List String → String
  | [] => ""
  | s :: rest => s ++ concatAll rest

/-- `PRAssistant.assist` from `mcp_client.py`: guard on the session, one
reasoning-service call (no `try/except`: a service exception propagates
raw), optional text content, then the sequential tool-call loop; the
joined fragments are returned.  Note: a single service round — no second
completion is ever requested. -/
def assistLegacy (stub : List (Except PyExn ChatMessage)) (beh : ToolBehavior)
    (sess : Option Nat) (query : String) (w : CallLog) : CallLog × Except PyExn String :=
  match sess with
  | none => (w, .error (.runtimeError "connect() must be called before assist()."))
  | some _ =>
      match svcCreate stub w [Msg.mk .user query] with
      | (w1, .error e) => (w1, .error e)
      | (w1, .ok msg) =>
          let base := match msg.content with
            | some c => [c]
            | none => []
          match runToolCallsLegacy beh w1 msg.toolCalls with
          | (w2, .error e) => (w2, .error e)
          | (w2, .ok ts) => (w2, .ok (concatAll (base ++ ts)))

/-! ### Anthropic client `src/mcp_devops/client.py` (`PRAssistant.assist`) -/

/-- Rendering of one `tool_use` part in `src/mcp_devops/client.py`: the
`call_tool` is wrapped in `try/except`, a success is rendered as
`\n[Tool: {name}]\n{content}\n` and an exception as
`\n[Tool {name} failed: {e}]\n`. -/
def renderToolUse (beh : ToolBehavior) (name input : String) : String :=
  match beh.respond name input with
  | .ok res => "\n[Tool: " ++ name ++ "]\n" ++ res.firstText ++ "\n"
  | .error e => "\n[Tool " ++ name ++ " failed: " ++ e.str ++ "]\n"

/-- The `for part in model_response.content` loop of
`src/mcp_devops/client.py`: text parts are kept, each `tool_use` part is
invoked in order (logged) and rendered, failures included, without ever
raising. -/
def processParts (beh : ToolBehavior) (w : CallLog) :
    List ContentPart → CallLog × List String
  | [] => (w, [])
  | .text s :: rest =>
      let (w2, ts) := processParts beh w rest
      (w2, s :: ts)
  | .toolUse n i :: rest =>
      match toolCall beh w n i with
      | (w1, _) =>
          let (w2, ts) := processParts beh w1 rest
          (w2, renderToolUse beh n i :: ts)

/-- `PRAssistant.assist` from `src/mcp_devops/client.py`: session guard,
one Anthropic call (unguarded: a service exception propagates raw), then
the part-processing loop; the joined fragments are returned. -/
def assistDevops (stub : List (Except PyExn (List ContentPart))) (beh : ToolBehavior)
    (sess : Option Nat) (query : String) (w : CallLog) : CallLog × Except PyExn String :=
  match sess with
  | none => (w, .error (.runtimeError "Not connected to server. Call connect() first."))
  | some _ =>
      match svcCreate stub w [Msg.mk .user query] with
      | (w1, .error e) => (w1, .error e)
      | (w1, .ok parts) =>
          let (w2, ts) := processParts beh w1 parts
          (w2, .ok (concatAll ts))

/-! ### HTTP client `mcp_client_http.py` (`PRAssistantHTTP.assist`) -/

/-- Python's `message.content or "No response"`. -/
def orNoResponse : Option String → String
  | none => "No response"
  | some c => if c == "" then "No response" else c

/-- `PRAssistantHTTP._execute_tool_calls`: issue each tool call in order
(no `try/except`: an exception propagates) and append to the message list
an assistant entry `Called {name}({args})` and a user entry carrying the
tool's result content. -/
def execToolCallsHTTP (beh : ToolBehavior) (w : CallLog) (msgs : List Msg) :
    List ToolCall → CallLog × Except PyExn (List Msg)
  | [] => (w, .ok msgs)
  | tc :: rest =>
      match toolCall beh w tc.name tc.args with
      | (w1, .error e) => (w1, .error e)
      | (w1, .ok res) =>
          execToolCallsHTTP beh w1
            (msgs ++ [Msg.mk .assistant ("Called " ++ tc.name ++ "(" ++ tc.args ++ ")"),
                      Msg.mk .user res.firstText]) rest

/-- `PRAssistantHTTP.assist` from `mcp_client_http.py`: session guard,
lazy API-key guard, a first completion with tools; if it contains tool
calls they are executed and a second completion (over the grown message
list, without tools) produces the final text, else the first message's
text is returned; empty/absent content becomes "No response". -/
def assistHTTP (stub : List (Except PyExn ChatMessage)) (beh : ToolBehavior)
    (sess : Option Nat) (apiKey : Option String) (query : String) (w : CallLog) :
    CallLog × Except PyExn String :=
  match sess with
  | none => (w, .error (.runtimeError "connect() must be called before assist()."))
  | some _ =>
      match apiKey with
      | none => (w, .error (.valueError "OPENAI_API_KEY environment variable is not set."))
      | some _ =>
          let msgs0 := [Msg.mk .user query]
          match svcCreate stub w msgs0 with
          | (w1, .error e) => (w1, .error e)
          | (w1, .ok msg) =>
              match msg.toolCalls with
              | [] => (w1, .ok (orNoResponse msg.content))
              | tc :: rest =>
                  match execToolCallsHTTP beh w1 msgs0 (tc :: rest) with
                  | (w2, .error e) => (w2, .error e)
                  | (w2, .ok msgs2) =>
                      match svcCreate stub w2 msgs2 with
                      | (w3, .error e) => (w3, .error e)
                      | (w3, .ok fin) => (w3, .ok (orNoResponse fin.content))

/-! ## Theorems -/

/-- A git environment whose `git.Repo` call raises a generic exception. -/
def genvBoom : GitEnv := ⟨fun _ => .error (.gitCommandError "boom")⟩

/-- A subprocess environment whose spawn raises a generic exception. -/
def procBoom : String → ProcOutcome := fun _ => .raises (.other "disk full")

/-- A subprocess environment in which pytest never terminates. -/
def procHangs : String → ProcOutcome := fun _ => .hangs

/-- The structured timeout dictionary of the mcp_devops `run_tests`. -/
def timeoutDict : TestsDict :=
  { returncode := -1
    failures := ["Test execution timed out after 5 minutes"]
    raw := ""
    success := false }

/-- The dictionary the mcp_devops `run_tests` produces for each subprocess
outcome (a proof-side characterization; `run_tests_eq` ties it to the
embedded handler). -/
def runTestsVal : ProcOutcome → TestsDict
  | .completes d res =>
      if d ≤ 300 then
        { returncode := res.returncode
          failures := devopsFailureLines (res.stdout ++ res.stderr)
          raw := strTail 1000 (res.stdout ++ res.stderr)
          success := res.returncode == 0 }
      else timeoutDict
  | .hangs => timeoutDict
  | .raises (.timeoutExpired _) => timeoutDict
  | .raises (.fileNotFound _) =>
      { returncode := -1
        failures := ["pytest not found. Please install pytest."]
        raw := ""
        success := false }
  | .raises e =>
      { returncode := -1
        failures := ["Error running tests: " ++ e.str]
        raw := ""
        success := false }

/-- The mcp_devops `run_tests` always returns (never hangs, never raises)
and its value is `runTestsVal` of the subprocess outcome. -/
theorem run_tests_eq (proc : String → ProcOutcome) (testPath : String) :
    run_tests proc testPath = some (.ok (runTestsVal (proc testPath))) := by
  cases h : proc testPath with
  | completes d res =>
      by_cases hd : d ≤ 300 <;>
        simp [run_tests, subprocessRun, h, runTestsVal, hd, timeoutDict]
  | hangs => simp [run_tests, subprocessRun, h, runTestsVal, timeoutDict]
  | raises e => cases e <;> simp [run_tests, subprocessRun, h, runTestsVal, timeoutDict]

/-- C1: for every environment (hence for every exception the git library or
the pytest subprocess can raise), the `search_repo` and `run_tests`
handlers of `src/mcp_devops/server.py` return a value and never propagate
an exception; when the guarded body raises, the returned value is a
failure-shaped result carrying the exception's message. -/
theorem C1_handler_exceptions_contained (genv : GitEnv) (keyword root : String)
    (proc : String → ProcOutcome) (testPath : String) :
    isOkB (search_repo genv keyword root) = true ∧
    (∃ d : TestsDict, run_tests proc testPath = some (.ok d)) ∧
    (∀ e : PyExn, genv.repo root = .error e →
      (∀ m, e ≠ .invalidGitRepository m) →
        search_repo genv keyword root = .ok ["Error: " ++ e.str]) ∧
    (∀ e : PyExn, proc testPath = .raises e →
      (∀ m, e ≠ .timeoutExpired m) → (∀ m, e ≠ .fileNotFound m) →
        run_tests proc testPath =
          some (.ok { returncode := -1
                      failures := ["Error running tests: " ++ e.str]
                      raw := ""
                      success := false })) := by
  refine ⟨?_, ⟨_, run_tests_eq proc testPath⟩, ?_, ?_⟩
  · cases h : genv.repo root with
    | ok blobs => simp [search_repo, h, isOkB]
    | error e => cases e <;> simp [search_repo, h, isOkB]
  · intro e he hne
    cases e with
    | invalidGitRepository m => exact absurd rfl (hne m)
    | _ => simp [search_repo, he, PyExn.str]
  · intro e he hto hfnf
    rw [run_tests_eq proc testPath, he]
    cases e with
    | timeoutExpired m => exact absurd rfl (hto m)
    | fileNotFound m => exact absurd rfl (hfnf m)
    | _ => rfl

/-- Witness for C1 at concrete failing environments. -/
theorem C1_witness :
    search_repo genvBoom "todo" "." = .ok ["Error: boom"] ∧
    run_tests procBoom "tests" =
      some (.ok { returncode := -1
                  failures := ["Error running tests: disk full"]
                  raw := ""
                  success := false }) := by
  refine ⟨?_, ?_⟩
  · exact (C1_handler_exceptions_contained genvBoom "todo" "." procBoom "tests").2.2.1
      (.gitCommandError "boom") rfl (fun m h => nomatch h)
  · exact (C1_handler_exceptions_contained genvBoom "todo" "." procBoom "tests").2.2.2
      (.other "disk full") rfl (fun m h => nomatch h) (fun m h => nomatch h)

/-- C3 counterexample: the claim says the test-execution tool enforces a
wall-clock bound on every invocation, but the legacy `mcp_server.py`
`run_tests` passes no timeout to `subprocess.run`: on a pytest process
that never terminates the call hangs (`none`) instead of returning a
structured timeout result. -/
theorem C3_counterexample : run_tests_legacy procHangs "tests" = none := rfl

/-- C3 (amended): the mcp_devops `run_tests` self-enforces a 300-second
wall-clock bound: it always returns a structured dictionary (never hangs,
never raises), and a hanging or over-long pytest run yields the structured
timeout failure. -/
theorem C3_devops_timeout_bound (proc : String → ProcOutcome) (testPath : String) :
    (∃ d : TestsDict, run_tests proc testPath = some (.ok d)) ∧
    (proc testPath = .hangs → run_tests proc testPath = some (.ok timeoutDict)) ∧
    (∀ dur res, proc testPath = .completes dur res → 300 < dur →
      run_tests proc testPath = some (.ok timeoutDict)) := by
  refine ⟨⟨_, run_tests_eq proc testPath⟩, ?_, ?_⟩
  · intro h
    rw [run_tests_eq proc testPath, h]
    rfl
  · intro dur res h hd
    rw [run_tests_eq proc testPath, h]
    simp only [runTestsVal]
    rw [if_neg (Nat.not_le.mpr hd)]

/-- Witness for C3 at a hanging subprocess environment. -/
theorem C3_witness : run_tests procHangs "tests" = some (.ok timeoutDict) :=
  (C3_devops_timeout_bound procHangs "tests").2.1 rfl

/-- The success flag of every `run_tests` dictionary agrees with the
return code being zero. -/
theorem runTestsVal_success (o : ProcOutcome) :
    ((runTestsVal o).success = true ↔ (runTestsVal o).returncode = 0) := by
  cases o with
  | completes d res =>
      by_cases hd : d ≤ 300
      · simp [runTestsVal, hd]
      · norm_num [runTestsVal, hd, timeoutDict]
  | hangs => norm_num [runTestsVal, timeoutDict]
  | raises e => cases e <;> norm_num [runTestsVal, timeoutDict]

/-- C10: every dictionary the mcp_devops `run_tests` returns satisfies
`success = true ↔ returncode = 0`, and every internal failure branch
(timeout, pytest missing, any other exception) yields `returncode = -1`,
`success = false` and a non-empty failure list. -/
theorem C10_run_tests_invariant (proc : String → ProcOutcome) (testPath : String) :
    ∃ d : TestsDict, run_tests proc testPath = some (.ok d) ∧
      (d.success = true ↔ d.returncode = 0) ∧
      (∀ e : PyExn, subprocessRun (proc testPath) (some 300) = some (.error e) →
        d.returncode = -1 ∧ d.success = false ∧ d.failures ≠ []) := by
  refine ⟨runTestsVal (proc testPath), run_tests_eq proc testPath,
    runTestsVal_success (proc testPath), ?_⟩
  cases h : proc testPath with
  | completes dur res =>
      intro e he
      by_cases hd : dur ≤ 300
      · simp [subprocessRun, hd] at he
      · simp only [runTestsVal, if_neg hd]
        norm_num [timeoutDict]
  | hangs =>
      intro e he
      norm_num [runTestsVal, timeoutDict]
  | raises e0 =>
      intro e he
      cases e0 <;> norm_num [runTestsVal, timeoutDict]

/-- Witness for C10 at a concrete failing environment. -/
theorem C10_witness :
    ∃ d : TestsDict, run_tests procBoom "tests" = some (.ok d) ∧
      d.returncode = -1 ∧ d.success = false ∧ d.failures ≠ [] := by
  obtain ⟨d, hd, _, hfail⟩ := C10_run_tests_invariant procBoom "tests"
  exact ⟨d, hd, hfail (.other "disk full") rfl⟩

/-! ### Client-side lemmas and theorems -/

/-- The tool-invocation intents of an Anthropic response, in listed order. -/
def intentsOf : List ContentPart → List (String × String)
  | [] => []
  | .text _ :: rest => intentsOf rest
  | .toolUse n i :: rest => (n, i) :: intentsOf rest

/-- The fragment each response part contributes to the devops client's
answer. -/
def renderedParts (beh : ToolBehavior) : List ContentPart → List String
  | [] => []
  | .text s :: rest => s :: renderedParts beh rest
  | .toolUse n i :: rest => renderToolUse beh n i :: renderedParts beh rest

/-- The devops part loop invokes exactly the listed tool-use intents, in
order, and produces one fragment per part. -/
theorem processParts_spec (beh : ToolBehavior) (parts : List ContentPart)
    (sv : List (List Msg)) (tc : List (String × String)) :
    processParts beh ⟨sv, tc⟩ parts = (⟨sv, tc ++ intentsOf parts⟩, renderedParts beh parts) := by
  induction parts generalizing tc with
  | nil => simp [processParts, intentsOf, renderedParts]
  | cons p rest ih =>
      cases p with
      | text s => simp [processParts, intentsOf, renderedParts, ih]
      | toolUse n i =>
          simp [processParts, toolCall, intentsOf, renderedParts, ih (tc ++ [(n, i)]),
            List.append_assoc]

/-- The fragment the legacy stdio client renders for one successful tool
call. -/
def legacyRender (beh : ToolBehavior) (t : ToolCall) : String :=
  match beh.respond t.name t.args with
  | .ok res => "\n[Tool " ++ t.name ++ " result]\n" ++ res.firstText ++ "\n"
  | .error _ => ""

/-- When every tool call succeeds, the legacy loop invokes exactly the
listed calls, in order, and returns one rendered result per call. -/
theorem runToolCallsLegacy_spec (beh : ToolBehavior)
    (hok : ∀ n a, isOkB (beh.respond n a) = true) (tcs : List ToolCall)
    (sv : List (List Msg)) (tc : List (String × String)) :
    runToolCallsLegacy beh ⟨sv, tc⟩ tcs =
      (⟨sv, tc ++ tcs.map fun t => (t.name, t.args)⟩, .ok (tcs.map (legacyRender beh))) := by
  induction tcs generalizing tc with
  | nil => simp [runToolCallsLegacy]
  | cons t rest ih =>
      cases hr : beh.respond t.name t.args with
      | error e =>
          have hc := hok t.name t.args
          rw [hr] at hc
          simp [isOkB] at hc
      | ok res =>
          simp [runToolCallsLegacy, toolCall, hr, ih (tc ++ [(t.name, t.args)]),
            legacyRender, List.append_assoc]

/-- The devops assist: for a reasoning stub returning the given parts, the
tool invocations are exactly the listed intents in order, and the answer
is the in-order concatenation of one fragment per part (text or tool
result). -/
theorem C5_sequential_in_order (beh : ToolBehavior) (parts : List ContentPart)
    (tcs : List ToolCall) (sessId : Nat) (q : String) (tc0 : List (String × String))
    (hok : ∀ n a, isOkB (beh.respond n a) = true) :
    assistDevops [.ok parts] beh (some sessId) q ⟨[], tc0⟩ =
      (⟨[[Msg.mk .user q]], tc0 ++ intentsOf parts⟩,
       .ok (concatAll (renderedParts beh parts))) ∧
    assistLegacy [.ok ⟨none, tcs⟩] beh (some sessId) q ⟨[], tc0⟩ =
      (⟨[[Msg.mk .user q]], tc0 ++ tcs.map fun t => (t.name, t.args)⟩,
       .ok (concatAll (tcs.map (legacyRender beh)))) := by
  constructor
  · simp [assistDevops, svcCreate, processParts_spec]
  · simp [assistLegacy, svcCreate, runToolCallsLegacy_spec beh hok]

/-- A tool behaviour in which every call succeeds with text "ok". -/
def behOK : ToolBehavior := ⟨fun _ _ => .ok ⟨["ok"], "CallToolResult"⟩⟩

/-- A tool behaviour in which every call raises. -/
def behFail : ToolBehavior := ⟨fun _ _ => .error (.other "tool blew up")⟩

/-- Witness for C5 at a concrete stub and behaviour. -/
theorem C5_witness :
    assistDevops [.ok [ContentPart.text "hi", ContentPart.toolUse "run_tests" "x"]] behOK
        (some 0) "q" ⟨[], []⟩ =
      (⟨[[Msg.mk .user "q"]],
        [] ++ intentsOf [ContentPart.text "hi", ContentPart.toolUse "run_tests" "x"]⟩,
       .ok (concatAll
        (renderedParts behOK [ContentPart.text "hi", ContentPart.toolUse "run_tests" "x"]))) ∧
    assistLegacy [.ok ⟨none, [⟨"1", "search_repo", "y"⟩]⟩] behOK (some 0) "q" ⟨[], []⟩ =
      (⟨[[Msg.mk .user "q"]],
        [] ++ [⟨"1", "search_repo", "y"⟩].map fun t : ToolCall => (t.name, t.args)⟩,
       .ok (concatAll ([⟨"1", "search_repo", "y"⟩].map (legacyRender behOK)))) :=
  C5_sequential_in_order behOK _ _ 0 "q" [] (fun _ _ => rfl)

/-- Tool-result entries of one reasoning-service request: the user-role
messages after the initial user request (the HTTP client feeds each tool
result back as a user message). -/
def toolResultEntries (msgs : List Msg) : List Msg :=
  (msgs.drop 1).filter fun m => m.role == Role.user

/-- C2 (amended, HTTP client): for a stub that first returns exactly one
tool-invocation intent and then a final text, `assist` issues exactly one
tool call, returns exactly the stub's final text, and the conversation
sent to the second reasoning round contains exactly one tool-result
entry. -/
theorem C2_http_round_trip (cid t a F key q : String) (res : ToolResult)
    (beh : ToolBehavior) (sessId : Nat) (tc0 : List (String × String))
    (hF : F ≠ "") (hr : beh.respond t a = .ok res) :
    assistHTTP [.ok ⟨none, [⟨cid, t, a⟩]⟩, .ok ⟨some F, []⟩] beh (some sessId) (some key) q
        ⟨[], tc0⟩ =
      (⟨[[Msg.mk .user q],
         [Msg.mk .user q,
          Msg.mk .assistant ("Called " ++ t ++ "(" ++ a ++ ")"),
          Msg.mk .user res.firstText]],
        tc0 ++ [(t, a)]⟩,
       .ok F) ∧
    toolResultEntries
        [Msg.mk .user q,
         Msg.mk .assistant ("Called " ++ t ++ "(" ++ a ++ ")"),
         Msg.mk .user res.firstText] = [Msg.mk .user res.firstText] := by
  have hFb : (F == "") = false := beq_eq_false_iff_ne.mpr hF
  constructor
  · simp [assistHTTP, svcCreate, execToolCallsHTTP, toolCall, hr, orNoResponse, hFb]
  · simp [toolResultEntries]

/-- Witness for C2 at a concrete stub and behaviour. -/
theorem C2_witness :
    assistHTTP [.ok ⟨none, [⟨"1", "run_tests", "p"⟩]⟩, .ok ⟨some "done", []⟩] behOK
        (some 0) (some "k") "q" ⟨[], []⟩ =
      (⟨[[Msg.mk .user "q"],
         [Msg.mk .user "q",
          Msg.mk .assistant ("Called " ++ "run_tests" ++ "(" ++ "p" ++ ")"),
          Msg.mk .user (ToolResult.firstText ⟨["ok"], "CallToolResult"⟩)]],
        [] ++ [("run_tests", "p")]⟩,
       .ok "done") :=
  (C2_http_round_trip "1" "run_tests" "p" "done" "k" "q" ⟨["ok"], "CallToolResult"⟩
    behOK 0 [] (by decide) rfl).1

/-- C2 counterexample: the legacy stdio client `mcp_client.py` performs a
single reasoning round.  Given the claim's stub (one tool intent, then a
final text "done"), it issues the tool call but returns the first-round
text with an inline tool-result block — not the stub's final text — and
never requests the second round (the service log has exactly one entry). -/
theorem C2_counterexample :
    assistLegacy [.ok ⟨none, [⟨"1", "run_tests", "p"⟩]⟩, .ok ⟨some "done", []⟩]
        behOK (some 0) "q" ⟨[], []⟩ =
      (⟨[[Msg.mk .user "q"]], [("run_tests", "p")]⟩,
       .ok "\n[Tool run_tests result]\nok\n") ∧
    ("\n[Tool run_tests result]\nok\n" : String) ≠ "done" := by
  exact ⟨rfl, by decide⟩

/-- Discriminator for the spec's `OrchestrationError` kind. -/
def PyExn.isOrchestration : PyExn → Bool
  | .orchestration _ => true
  | _ => false

/-- C4 (amended): when the reasoning-service call raises, both stdio
clients abort the whole run with exactly that exception — unwrapped, since
no `OrchestrationError` type exists in the code — no tool is invoked and
no partial answer is returned. -/
theorem C4_service_failure_aborts_run (e : PyExn)
    (rest1 : List (Except PyExn ChatMessage))
    (rest2 : List (Except PyExn (List ContentPart))) (beh : ToolBehavior)
    (sessId : Nat) (q : String) (tc0 : List (String × String)) :
    assistLegacy (.error e :: rest1) beh (some sessId) q ⟨[], tc0⟩ =
      (⟨[[Msg.mk .user q]], tc0⟩, .error e) ∧
    assistDevops (.error e :: rest2) beh (some sessId) q ⟨[], tc0⟩ =
      (⟨[[Msg.mk .user q]], tc0⟩, .error e) := by
  constructor <;> simp [assistLegacy, assistDevops, svcCreate]

/-- C4 counterexample: a reasoning-service failure surfaces as the raw
exception (here an API error), not as an `OrchestrationError`-tagged
wrapping. -/
theorem C4_counterexample :
    (assistLegacy [.error (.apiError "401 Unauthorized")] behOK (some 0) "q" ⟨[], []⟩).2 =
      .error (.apiError "401 Unauthorized") ∧
    PyExn.isOrchestration (.apiError "401 Unauthorized") = false :=
  ⟨rfl, rfl⟩

/-- `concatAll` distributes over list append. -/
theorem concatAll_append (s t : List String) :
    concatAll (s ++ t) = concatAll s ++ concatAll t := by
  induction s with
  | nil => simp [concatAll]
  | cons x xs ih => simp [concatAll, ih, String.append_assoc]

/-- Every member of a fragment list occurs contiguously in the joined
answer. -/
theorem mem_concatAll (x : String) (l : List String) (hx : x ∈ l) :
    ∃ pre post, concatAll l = pre ++ x ++ post := by
  obtain ⟨s, t, rfl⟩ := List.append_of_mem hx
  refine ⟨concatAll s, concatAll t, ?_⟩
  rw [concatAll_append]
  simp [concatAll, String.append_assoc]

/-- A tool-use part contributes its rendered fragment to the devops
client's fragment list. -/
theorem renderedParts_mem (beh : ToolBehavior) (parts : List ContentPart)
    (n i : String) (h : ContentPart.toolUse n i ∈ parts) :
    renderToolUse beh n i ∈ renderedParts beh parts := by
  induction parts with
  | nil => cases h
  | cons p rest ih =>
      cases h with
      | head => simp [renderedParts]
      | tail _ hm => cases p <;> simp [renderedParts, ih hm]

/-- C7 (amended, devops client): whatever the tool behaviour, `assist`
never crashes once the reasoning service has answered, and every failing
tool call is rendered as an inline `[Tool {name} failed: {reason}]`
message embedded in the returned answer. -/
theorem C7_tool_failure_inline (stubParts : List ContentPart) (beh : ToolBehavior)
    (sessId : Nat) (q : String) (tc0 : List (String × String)) (n i : String) (e : PyExn) :
    isOkB (assistDevops [.ok stubParts] beh (some sessId) q ⟨[], tc0⟩).2 = true ∧
    (ContentPart.toolUse n i ∈ stubParts → beh.respond n i = .error e →
      ∃ pre post,
        (assistDevops [.ok stubParts] beh (some sessId) q ⟨[], tc0⟩).2 =
          .ok (pre ++ ("\n[Tool " ++ n ++ " failed: " ++ e.str ++ "]\n") ++ post)) := by
  have hmain :
      assistDevops [.ok stubParts] beh (some sessId) q ⟨[], tc0⟩ =
        (⟨[[Msg.mk .user q]], tc0 ++ intentsOf stubParts⟩,
         .ok (concatAll (renderedParts beh stubParts))) := by
    simp [assistDevops, svcCreate, processParts_spec]
  constructor
  · rw [hmain]
    rfl
  · intro hmem hr
    obtain ⟨pre, post, hdec⟩ :=
      mem_concatAll (renderToolUse beh n i) (renderedParts beh stubParts)
        (renderedParts_mem beh stubParts n i hmem)
    refine ⟨pre, post, ?_⟩
    rw [hmain]
    simp only []
    rw [hdec]
    simp [renderToolUse, hr]

/-- C7 counterexample: in the legacy stdio client `mcp_client.py` there is
no `try/except` around `call_tool`: a failing tool call aborts `assist`
with the raw exception instead of an inline message — the run crashes. -/
theorem C7_counterexample :
    isOkB (assistLegacy [.ok ⟨none, [⟨"1", "run_tests", "p"⟩]⟩] behFail (some 0) "q"
      ⟨[], []⟩).2 = false := rfl

/-- Witness for C7 at a concrete failing tool. -/
theorem C7_witness :
    isOkB (assistDevops [.ok [ContentPart.toolUse "run_tests" "p"]] behFail (some 0) "q"
      ⟨[], []⟩).2 = true ∧
    ∃ pre post,
      (assistDevops [.ok [ContentPart.toolUse "run_tests" "p"]] behFail (some 0) "q"
        ⟨[], []⟩).2 =
        .ok (pre ++ ("\n[Tool " ++ "run_tests" ++ " failed: " ++
              (PyExn.other "tool blew up").str ++ "]\n") ++ post) :=
  ⟨(C7_tool_failure_inline [ContentPart.toolUse "run_tests" "p"] behFail 0 "q" []
      "run_tests" "p" (.other "tool blew up")).1,
   (C7_tool_failure_inline [ContentPart.toolUse "run_tests" "p"] behFail 0 "q" []
      "run_tests" "p" (.other "tool blew up")).2 (by simp) rfl⟩

/-! ### Tool-executor argument validation (C6) and session lifecycle (C8, C9) -/

/-- One argument slot of a tool's input schema. -/
structure ArgSpec where
  name : String
  required : Bool
deriving DecidableEq, Repr

/-- The input schema of `search_repo` as declared in
`src/mcp_devops/server.py`: `keyword: str` (required, no default) and
`root: str = "."` (optional). -/
def searchRepoSchema : List ArgSpec := [⟨"keyword", true⟩, ⟨"root", false⟩]

/-- The executor's validation failure, naming the offending field. -/
inductive ExecError where
  | invalidArguments (field : String)
deriving DecidableEq, Repr

/-- Modelled from the spec: the Tool Executor's check for a missing
required argument (the validation itself is performed by the external
FastMCP framework, not by code in this repository): the first schema
field that is required but absent from the argument mapping. -/
def findMissing (schema : List ArgSpec) (args : List (String × String)) : Option String :=
  (schema.find? fun s => s.required && !(args.any fun a => a.1 == s.name)).map fun s => s.name

/-- Modelled from the spec: the Tool Executor's check for an unregistered
argument (performed by the external FastMCP framework, not by code in this
repository): the first supplied argument whose name is not in the
schema. -/
def findUnknown (schema : List ArgSpec) (args : List (String × String)) : Option String :=
  (args.find? fun a => !(schema.any fun s => s.name == a.1)).map fun a => a.1

/-- Modelled from the spec: the Tool Executor's `execute` — validate the
argument mapping against the descriptor's schema (every required argument
present, unknown arguments rejected, failing with `InvalidArgumentsError`
naming the offending field) and only then invoke the bound handler.  The
executor itself lives in the external FastMCP dependency, not under this
repository's source. -/
def execute (schema : List ArgSpec) (handler : List (String × String) → List String)
    (args : List (String × String)) : Except ExecError (List String) :=
  match findMissing schema args with
  | some f => .error (.invalidArguments f)
  | none =>
      match findUnknown schema args with
      | some f => .error (.invalidArguments f)
      | none => .ok (handler args)

/-- C6: an argument mapping that misses a required field of `search_repo`'s
schema or carries an unregistered field makes `execute` fail with
`InvalidArgumentsError`, and the result is independent of the handler (the
handler is not invoked on validation failure). -/
theorem C6_invalid_arguments_rejected (handler : List (String × String) → List String)
    (args : List (String × String))
    (hbad : (∃ s ∈ searchRepoSchema, s.required = true ∧ ∀ a ∈ args, a.1 ≠ s.name) ∨
            (∃ a ∈ args, ∀ s ∈ searchRepoSchema, s.name ≠ a.1)) :
    (∃ f, execute searchRepoSchema handler args = .error (.invalidArguments f)) ∧
    (∀ h2, execute searchRepoSchema handler args = execute searchRepoSchema h2 args) := by
  rcases hm : findMissing searchRepoSchema args with _ | f
  · rcases hu : findUnknown searchRepoSchema args with _ | f
    · exfalso
      rcases hbad with ⟨s, hs, hreq, hnone⟩ | ⟨a, ha, hnos⟩
      · have h1 : searchRepoSchema.find?
            (fun s => s.required && !(args.any fun a => a.1 == s.name)) = none := by
          simpa [findMissing] using hm
        rw [List.find?_eq_none] at h1
        have h2 : args.any (fun a => a.1 == s.name) = true := by
          cases hval : args.any (fun a => a.1 == s.name) with
          | true => rfl
          | false => exact absurd (by rw [hreq, hval]; rfl) (h1 s hs)
        obtain ⟨a, hmem2, haeq⟩ := List.any_eq_true.mp h2
        exact hnone a hmem2 (eq_of_beq haeq)
      · have h1 : args.find? (fun a => !(searchRepoSchema.any fun s => s.name == a.1)) = none := by
          simpa [findUnknown] using hu
        rw [List.find?_eq_none] at h1
        have h2 : searchRepoSchema.any (fun s => s.name == a.1) = true := by
          cases hval : searchRepoSchema.any (fun s => s.name == a.1) with
          | true => rfl
          | false => exact absurd (by rw [hval]; rfl) (h1 a ha)
        obtain ⟨s, hs2, hseq⟩ := List.any_eq_true.mp h2
        exact hnos s hs2 (eq_of_beq hseq)
    · exact ⟨⟨f, by simp [execute, hm, hu]⟩, fun h2 => by simp [execute, hm, hu]⟩
  · exact ⟨⟨f, by simp [execute, hm]⟩, fun h2 => by simp [execute, hm]⟩

/-- A concrete handler used by the C6 witness. -/
def echoHandler : List (String × String) → List String :=
  fun args => args.map fun a => a.2

/-- Witness for C6: the empty mapping misses the required `keyword`. -/
theorem C6_witness :
    (∃ f, execute searchRepoSchema echoHandler [] = .error (.invalidArguments f)) ∧
    (∀ h2, execute searchRepoSchema echoHandler [] = execute searchRepoSchema h2 []) :=
  C6_invalid_arguments_rejected echoHandler []
    (Or.inl ⟨⟨"keyword", true⟩, by simp [searchRepoSchema], rfl, by simp⟩)

/-- The connection-related fields of a `PRAssistant`: the stored
`stdio_context` (a channel id once `connect` assigned it) and the
`ClientSession`. -/
structure ClientState where
  ctx : Option Nat
  sess : Option Nat
deriving DecidableEq, Repr

/-- The world of transport channels: which channel ids have been
released. -/
structure ChanWorld where
  released : List Nat
deriving DecidableEq, Repr

/-- Raw semantics of `stdio_context.__aexit__`: releasing a channel that
was already released (or never entered) raises; otherwise the channel is
released. -/
def aexitRaw (w : ChanWorld) (c : Nat) : ChanWorld × Except PyExn Unit :=
  if c ∈ w.released then (w, .error (.runtimeError "context already exited"))
  else (⟨c :: w.released⟩, .ok ())

/-- `PRAssistant.disconnect` from `src/mcp_devops/client.py`: if a context
is stored, `__aexit__` it inside `try/except` (any exception swallowed)
and in the `finally` block clear both `stdio_context` and `session`.  The
function is total: no exception escapes. -/
def disconnectDevops (s : ClientState) (w : ChanWorld) : ClientState × ChanWorld :=
  match s.ctx with
  | none => (s, w)
  | some c =>
      let r := aexitRaw w c
      (⟨none, none⟩, r.1)

/-- `PRAssistant.disconnect` from the legacy `mcp_client.py`: same
`try/except` around `__aexit__`, but the context and session fields are
NOT cleared. -/
def disconnectLegacy (s : ClientState) (w : ChanWorld) : ClientState × ChanWorld :=
  match s.ctx with
  | none => (s, w)
  | some c =>
      let r := aexitRaw w c
      (s, r.1)

/-- The `try/finally` of `src/mcp_devops/client.py`'s `main`: run the body
(which may fail) and disconnect on every exit path. -/
def runWithCleanup (body : ChanWorld → ChanWorld × Except PyExn String)
    (s : ClientState) (w : ChanWorld) : (ClientState × ChanWorld) × Except PyExn String :=
  let br := body w
  (disconnectDevops s br.1, br.2)

/-- C8: closing a session is idempotent and safe.  A second `disconnect`
after a first is exactly a no-op for both clients (in the devops client
because the context was cleared; in the legacy client because the repeated
`__aexit__` raises and is swallowed, leaving the world unchanged);
`disconnect` on a never-connected client is a no-op; both disconnects are
total functions, so no exception is ever raised to the caller; and under
the `try/finally` of `main` the channel is released on every exit path,
exceptions raised during use included. -/
theorem C8_close_idempotent_and_released (s : ClientState) (w : ChanWorld) (c : Nat)
    (body : ChanWorld → ChanWorld × Except PyExn String) :
    (disconnectDevops (disconnectDevops s w).1 (disconnectDevops s w).2 =
      disconnectDevops s w) ∧
    (disconnectLegacy (disconnectLegacy s w).1 (disconnectLegacy s w).2 =
      disconnectLegacy s w) ∧
    (disconnectDevops ⟨none, none⟩ w = (⟨none, none⟩, w)) ∧
    (s.ctx = some c → c ∈ ((runWithCleanup body s w).1).2.released) := by
  refine ⟨?_, ?_, rfl, ?_⟩
  · cases hc : s.ctx with
    | none => simp [disconnectDevops, hc]
    | some c0 => simp [disconnectDevops, hc]
  · cases hc : s.ctx with
    | none => simp [disconnectLegacy, hc]
    | some c0 =>
        by_cases hmem : c0 ∈ w.released <;>
          simp [disconnectLegacy, hc, aexitRaw, hmem]
  · intro hctx
    by_cases hmem : c ∈ (body w).1.released <;>
      simp [runWithCleanup, disconnectDevops, hctx, aexitRaw, hmem]

/-- Witness for C8: a connected client whose body fails still releases its
channel. -/
theorem C8_witness :
    ClientState.ctx ⟨some 7, some 1⟩ = some 7 ∧
    7 ∈ ((runWithCleanup (fun w => (w, .error (.other "boom"))) ⟨some 7, some 1⟩
      ⟨[]⟩).1).2.released :=
  ⟨rfl, (C8_close_idempotent_and_released ⟨some 7, some 1⟩ ⟨[]⟩ 7
    (fun w => (w, .error (.other "boom")))).2.2.2 rfl⟩

/-- C9: with no session (never connected, or cleared by the devops
`disconnect`), every `assist` variant raises `RuntimeError` immediately:
the call log is returned unchanged, so no reasoning-service call and no
tool invocation happens; and the devops `disconnect` does clear the
session. -/
theorem C9_assist_requires_connection (stub1 : List (Except PyExn ChatMessage))
    (stub2 : List (Except PyExn (List ContentPart))) (beh : ToolBehavior)
    (q key : String) (w : CallLog) (c k : Nat) (w2 : ChanWorld) :
    assistLegacy stub1 beh none q w =
      (w, .error (.runtimeError "connect() must be called before assist().")) ∧
    assistDevops stub2 beh none q w =
      (w, .error (.runtimeError "Not connected to server. Call connect() first.")) ∧
    assistHTTP stub1 beh none (some key) q w =
      (w, .error (.runtimeError "connect() must be called before assist().")) ∧
    (disconnectDevops ⟨some c, some k⟩ w2).1.sess = none :=
  ⟨rfl, rfl, rfl, rfl⟩
